import Mathlib

/-!
Verification development for the practice-questions backend: a shallow
embedding of the request-handling pipeline (response formatter, role
extractor, auth middleware, role gate, and the exam / subject / topic /
translation / enrollment / user controllers), with theorems checking the
specification's testable properties against the embedded code.

Remote table state is modelled as a list of rows; the Supabase client's
filtered fetch / insert / update calls become list filter / append / map.
JavaScript runtime values appearing in the middleware (header parsing,
truthiness, `Array.isArray`) are modelled by the `JsVal` type below.
-/

namespace PQB

/-- Model of a JavaScript (JSON-like) runtime value, used where the source
manipulates untyped data: parsed role headers, response payloads, error
details. `vnull` stands for both `null` and `undefined` where only
truthiness matters. -/
inductive JsVal where
  | vnull
  | vbool (b : Bool)
  | vnum (n : Int)
  | vstr (s : String)
  | varr (elems : List JsVal)
  | vobj (fields : List (String × JsVal))
deriving Repr

/-- JavaScript truthiness of a `JsVal`. -/
def JsVal.truthy : JsVal → Bool
  | .vnull => false
  | .vbool b => b
  | .vnum n => !(n == 0)
  | .vstr s => !(s == "")
  | .varr _ => true
  | .vobj _ => true

/-- Model of `Array.isArray`. -/
def JsVal.isArray : JsVal → Bool
  | .varr _ => true
  | _ => false

/-- HTTP status outcomes used by the controllers, named after the
`HTTP_STATUS` table in `src/utils/response.js`. -/
inductive HStatus where
  | ok
  | created
  | badRequest
  | unauthorized
  | forbidden
  | notFound
  | conflict
  | internalError
deriving DecidableEq, Repr

/-! ## Response formatter (`src/utils/response.js`) -/

/-- The success envelope emitted by `sendSuccess`. -/
structure SuccessEnvelope where
  status : String
  message : String
  data : JsVal
  timestamp : String
deriving Repr

/-- Embedding of `sendSuccess(res, message, data, statusCode)`.

`data` is `none` when the caller omits the argument (the JS default `[]`
then applies); a passed `null` is `some JsVal.vnull`. `statusCode` is
`none` when omitted (JS default `200`). `now` stands for the value of
`new Date().toISOString()` at the call. The body mirrors
`Array.isArray(data) ? data : (data || [])`. -/
def sendSuccess (message : String) (data : Option JsVal) (statusCode : Option Nat)
    (now : String) : Nat × SuccessEnvelope :=
  let d := data.getD (JsVal.varr [])
  let responseData := if d.isArray then d else (if d.truthy then d else JsVal.varr [])
  (statusCode.getD 200,
   { status := "Success", message := message, data := responseData, timestamp := now })

/-- The error detail attached by `sendError` outside production:
`\x7bmessage, ...(development && \x7bstack\x7d)\x7d`. -/
structure ErrorDetail where
  message : String
  stack : Option String
deriving DecidableEq, Repr

/-- The failure envelope emitted by `sendError`. -/
structure ErrorEnvelope where
  status : String
  message : String
  data : JsVal
  timestamp : String
  error : Option ErrorDetail
deriving Repr

/-- An error argument passed to `sendError` (a JS `Error` with `message`
and `stack`); `none` models the default `null`. -/
structure ErrArg where
  message : String
  stack : String
deriving DecidableEq, Repr

/-- Embedding of `sendError(res, message, statusCode, error)`.

`statusCode = none` models the omitted argument (JS default `400`);
`nodeEnv` is the value of `process.env.NODE_ENV`; `now` is the clock
reading. Error detail is attached only when an error is given and
`NODE_ENV` is not `production`; the stack is included only in
`development`. -/
def sendError (message : String) (statusCode : Option Nat) (error : Option ErrArg)
    (nodeEnv : String) (now : String) : Nat × ErrorEnvelope :=
  let detail : Option ErrorDetail :=
    match error with
    | some e =>
        if nodeEnv ≠ "production" then
          some { message := e.message
                 stack := if nodeEnv = "development" then some e.stack else none }
        else none
    | none => none
  (statusCode.getD 400,
   { status := "Failure", message := message, data := JsVal.varr []
     timestamp := now, error := detail })

/-! ## Role extractor (`src/middleware/role.middleware.js`) -/

/-- Embedding of `extractRoles`: splits the `X-User-Roles` header on commas
and trims each entry; an absent (or empty, hence falsy) header yields the
empty role list. -/
def extractRoles (rolesHeader : Option String) : List String :=
  match rolesHeader with
  | some h => if h ≠ "" then (h.splitOn ",").map (fun r => r.trim) else []
  | none => []

/-- Outcome of the `requireRoles` middleware: pass the request on, or reject
with 401 / 403. -/
inductive GateResult where
  | allowed
  | unauthorized
  | forbidden
deriving DecidableEq, Repr

/-- Model of `requiredRoles.includes(role)` where `role` is an arbitrary JS
value and `requiredRoles` a string array: only a string can match. -/
def jsIncludesStr (xs : List String) (v : JsVal) : Bool :=
  match v with
  | .vstr s => xs.contains s
  | _ => false

/-- Embedding of the middleware produced by `requireRoles(requiredRoles)`.
`requiredRoles = none` models a missing configuration (`!requiredRoles`);
`userRoles = none` models an absent `req.userRoles`. The check is a pure
set-intersection test on its two arguments; it takes no table state. -/
def requireRoles (requiredRoles : Option (List String)) (userRoles : Option (List JsVal)) :
    GateResult :=
  match requiredRoles with
  | none => .allowed
  | some req =>
    if req.isEmpty then .allowed
    else
      match userRoles with
      | none => .unauthorized
      | some ur =>
        if ur.isEmpty then .unauthorized
        else if ur.any (fun role => jsIncludesStr req role) then .allowed
        else .forbidden

/-! ## JSON parsing model for the auth middleware

`src/middleware/auth.middleware.js` runs `JSON.parse` on the raw
`X-User-Roles` header. The parser below models `JSON.parse` on the JSON
fragment of `null`, booleans, integer numerals, escape-free strings,
arrays and objects; inputs outside this fragment are modelled as parse
failures (which the middleware catches). -/

/-- Drop leading JSON whitespace. -/
def skipWs : List Char → List Char
  | [] => []
  | c :: cs => if c = ' ' ∨ c = '\t' ∨ c = '\n' ∨ c = '\r' then skipWs cs else c :: cs

/-- Parse the body of a string literal up to the closing quote; escape
sequences are outside the modelled fragment. -/
def parseStringBody : List Char → Option (String × List Char)
  | [] => none
  | c :: cs =>
    if c = '"' then some ("", cs)
    else if c = '\\' then none
    else
      match parseStringBody cs with
      | some (s, rest) => some (String.mk (c :: s.data), rest)
      | none => none

/-- Fold a digit run into a natural number. -/
def digitsToNat (ds : List Char) : Nat :=
  ds.foldl (fun n c => n * 10 + (c.toNat - 48)) 0

/-- Parse an integer numeral (optionally negative); a following `.`, `e`
or `E` puts the input outside the modelled fragment. -/
def parseIntLit (cs : List Char) : Option (Int × List Char) :=
  let core (ds rest : List Char) : Option (Nat × List Char) :=
    if ds.isEmpty then none
    else
      match rest with
      | r :: _ => if r = '.' ∨ r = 'e' ∨ r = 'E' then none else some (digitsToNat ds, rest)
      | [] => some (digitsToNat ds, rest)
  match cs with
  | '-' :: cs₁ =>
    let sp := cs₁.span (fun c => c.isDigit)
    match core sp.1 sp.2 with
    | some (n, rest) => some (-(n : Int), rest)
    | none => none
  | _ =>
    let sp := cs.span (fun c => c.isDigit)
    match core sp.1 sp.2 with
    | some (n, rest) => some ((n : Int), rest)
    | none => none

mutual

/-- Fueled recursive-descent parser for one JSON value. -/
def parseVal : Nat → List Char → Option (JsVal × List Char)
  | 0, _ => none
  | fuel + 1, cs =>
    match skipWs cs with
    | 'n' :: 'u' :: 'l' :: 'l' :: rest => some (.vnull, rest)
    | 't' :: 'r' :: 'u' :: 'e' :: rest => some (.vbool true, rest)
    | 'f' :: 'a' :: 'l' :: 's' :: 'e' :: rest => some (.vbool false, rest)
    | '"' :: rest =>
      match parseStringBody rest with
      | some (s, rest₁) => some (.vstr s, rest₁)
      | none => none
    | '[' :: rest =>
      match skipWs rest with
      | ']' :: rest₁ => some (.varr [], rest₁)
      | _ => parseElems fuel rest []
    | '{' :: rest =>
      match skipWs rest with
      | '}' :: rest₁ => some (.vobj [], rest₁)
      | _ => parseFields fuel rest []
    | c :: rest =>
      if c = '-' ∨ c.isDigit then
        match parseIntLit (c :: rest) with
        | some (n, rest₁) => some (.vnum n, rest₁)
        | none => none
      else none
    | [] => none

/-- Parse the remaining elements of a non-empty array. -/
def parseElems : Nat → List Char → List JsVal → Option (JsVal × List Char)
  | 0, _, _ => none
  | fuel + 1, cs, acc =>
    match parseVal fuel cs with
    | some (v, rest) =>
      match skipWs rest with
      | ',' :: rest₁ => parseElems fuel rest₁ (acc ++ [v])
      | ']' :: rest₁ => some (.varr (acc ++ [v]), rest₁)
      | _ => none
    | none => none

/-- Parse the remaining members of a non-empty object. -/
def parseFields : Nat → List Char → List (String × JsVal) → Option (JsVal × List Char)
  | 0, _, _ => none
  | fuel + 1, cs, acc =>
    match skipWs cs with
    | '"' :: rest =>
      match parseStringBody rest with
      | some (k, rest₁) =>
        match skipWs rest₁ with
        | ':' :: rest₂ =>
          match parseVal fuel rest₂ with
          | some (v, rest₃) =>
            match skipWs rest₃ with
            | ',' :: rest₄ => parseFields fuel rest₄ (acc ++ [(k, v)])
            | '}' :: rest₄ => some (.vobj (acc ++ [(k, v)]), rest₄)
            | _ => none
          | none => none
        | _ => none
      | none => none
    | _ => none

end

/-- Model of `JSON.parse` on the fragment described above: parse one value
and require only whitespace to remain. -/
def jsonParse (s : String) : Option JsVal :=
  match parseVal (s.length + 1) s.data with
  | some (v, rest) => if skipWs rest = [] then some v else none
  | none => none

/-! ## Auth middleware (`src/middleware/auth.middleware.js`) -/

/-- Embedding of the `req.userId` assignment: the `X-User-ID` header, or the
`anonymous` sentinel when the header is absent (or empty, hence falsy). -/
def authUserId (userIdHeader : Option String) : String :=
  match userIdHeader with
  | some h => if h ≠ "" then h else "anonymous"
  | none => "anonymous"

/-- Embedding of the `req.userRoles` assignment in the auth middleware:
`JSON.parse` the header; a parsed array is used as-is, any other parsed
value is wrapped in a singleton, a parse failure falls back to the raw
header as a single role, and an absent header defaults to `['user']`. -/
def authUserRoles (rolesHeader : Option String) : List JsVal :=
  match rolesHeader with
  | some h =>
    if h ≠ "" then
      match jsonParse h with
      | some v =>
        match v with
        | .varr xs => xs
        | _ => [v]
      | none => [.vstr h]
    else [.vstr "user"]
  | none => [.vstr "user"]

/-- The value of `req.userRoles` seen by route handlers in the composed
application: `app.js` installs `extractRoles` and then `authMiddleware`,
and the latter unconditionally overwrites `req.userRoles`, so the composed
result is the auth middleware's. -/
def composedUserRoles (rolesHeader : Option String) : List JsVal :=
  authUserRoles rolesHeader

/-! ## Data model: rows of the remote tables -/

/-- A row of the `exams` table, restricted to the fields the controllers
read or write. -/
structure Exam where
  id : String
  name : String
  description : Option String
  user_id : String
  is_active : Bool
  is_deleted : Bool
deriving DecidableEq, Repr

/-- A row of the `subjects` table. -/
structure Subject where
  id : String
  name : String
  description : Option String
  user_id : String
  exam_id : String
  is_active : Bool
  is_deleted : Bool
deriving DecidableEq, Repr

/-- A row of the `topics` table. -/
structure Topic where
  id : String
  name : String
  description : Option String
  user_id : String
  subject_id : String
  is_active : Bool
  is_deleted : Bool
deriving DecidableEq, Repr

/-- A row of the `users` table, keyed by `user_id`. -/
structure UserRow where
  user_id : String
  name : Option String
  email : Option String
  contact_number : Option String
  gender : Option String
  dob : Option String
  profile_picture : Option String
  is_anonymous : Bool
  is_approved : Bool
  role : Option JsVal
deriving Repr

/-- A row of the `enrollments` table (one per user, `exam_ids TEXT[]`). -/
structure Enrollment where
  user_id : String
  exam_ids : List String
deriving DecidableEq, Repr

/-- A row of the `translations` table, restricted to the fields
`createTranslation` / `bulkCreateTranslations` write. -/
structure Translation where
  key : String
  english : String
  hindi : Option String
  marathi : Option String
  is_published : Bool
  created_by : String
  updated_by : String
deriving DecidableEq, Repr

/-- Model of the JS idiom `x || null` on an optional string field: an
absent or empty (falsy) value becomes `null`. -/
def normEmpty (o : Option String) : Option String :=
  match o with
  | some s => if s = "" then none else some s
  | none => none

/-- The in-controller role check shared by the subject, topic and
translation controllers:
`userRoles.some(role => ['admin', 'org', 'teacher'].includes(role))`. -/
def hasAuthorizedRole (roles : List String) : Bool :=
  roles.any (fun role => ["admin", "org", "teacher"].contains role)

/-! ## Exam controller (`exam.controller.js`) -/

/-- Embedding of `getAllExams`: fetch with `is_deleted=eq.false`,
`is_active=eq.true`. -/
def getAllExams (exams : List Exam) : List Exam :=
  exams.filter (fun e => !e.is_deleted && e.is_active)

/-- Embedding of `getExamById`: the active row with the given id, 404 when
absent or soft-deleted. -/
def getExamById (exams : List Exam) (id : String) : HStatus × Option Exam :=
  if id = "" then (.badRequest, none)
  else
    match exams.filter (fun e => e.id == id && !e.is_deleted && e.is_active) with
    | [] => (.notFound, none)
    | e :: _ => (.ok, some e)

/-- Embedding of `getExamsByUserId`: active rows owned by the given user. -/
def getExamsByUserId (exams : List Exam) (userId : String) : HStatus × List Exam :=
  if userId = "" then (.badRequest, [])
  else (.ok, exams.filter (fun e => e.user_id == userId && !e.is_deleted && e.is_active))

/-- The request body of `updateExamById`: `name` is set only when truthy,
`description` whenever the key is present (outer `Option` = key present,
inner = value or `null`). -/
structure ExamPatchBody where
  name : Option String
  description : Option (Option String)
deriving DecidableEq, Repr

/-- Apply an exam patch to one row, mirroring the `updateData` object built
by `updateExamById`. -/
def applyExamPatch (b : ExamPatchBody) (e : Exam) : Exam :=
  let e₁ :=
    match b.name with
    | some n => if n ≠ "" then { e with name := n } else e
    | none => e
  match b.description with
  | some d => { e₁ with description := d }
  | none => e₁

/-- Embedding of `updateExamById`: fetch by id (404 when absent), then the
ownership check `exams[0].user_id !== userId && !userRoles.includes('admin')`
(403), then patch every row matching the id. -/
def updateExamById (exams : List Exam) (userId : String) (roles : List String)
    (id : String) (b : ExamPatchBody) : HStatus × List Exam :=
  if id = "" then (.badRequest, exams)
  else
    match exams.filter (fun e => e.id == id) with
    | [] => (.notFound, exams)
    | e :: _ =>
      if e.user_id ≠ userId ∧ ¬ roles.contains "admin" then (.forbidden, exams)
      else (.ok, exams.map (fun x => if x.id == id then applyExamPatch b x else x))

/-- Embedding of `deleteExamById`: fetch the non-deleted row by id (404 when
absent or already deleted), the same ownership check as update, then persist
`is_deleted := true, is_active := false` on every row matching the id. -/
def deleteExamById (exams : List Exam) (userId : String) (roles : List String)
    (id : String) : HStatus × List Exam :=
  if id = "" then (.badRequest, exams)
  else
    match exams.filter (fun e => e.id == id && !e.is_deleted) with
    | [] => (.notFound, exams)
    | e :: _ =>
      if e.user_id ≠ userId ∧ ¬ roles.contains "admin" then (.forbidden, exams)
      else (.ok, exams.map (fun x =>
          if x.id == id then { x with is_deleted := true, is_active := false } else x))

/-! ## Subject controller (`subject.controller.js`) -/

/-- Embedding of `getAllSubjects`. -/
def getAllSubjects (subjects : List Subject) : List Subject :=
  subjects.filter (fun s => !s.is_deleted && s.is_active)

/-- Embedding of `getSubjectById`. -/
def getSubjectById (subjects : List Subject) (id : String) : HStatus × Option Subject :=
  if id = "" then (.badRequest, none)
  else
    match subjects.filter (fun s => s.id == id && !s.is_deleted && s.is_active) with
    | [] => (.notFound, none)
    | s :: _ => (.ok, some s)

/-- Embedding of `getSubjectsByExamId`. -/
def getSubjectsByExamId (subjects : List Subject) (examId : String) : HStatus × List Subject :=
  if examId = "" then (.badRequest, [])
  else (.ok, subjects.filter (fun s => s.exam_id == examId && !s.is_deleted && s.is_active))

/-- Embedding of `getSubjectsByUserId`. -/
def getSubjectsByUserId (subjects : List Subject) (userId : String) : HStatus × List Subject :=
  if userId = "" then (.badRequest, [])
  else (.ok, subjects.filter (fun s => s.user_id == userId && !s.is_deleted && s.is_active))

/-- The request body of `updateSubjectById` (`name` and `exam_id` set only
when truthy, `description` whenever present). -/
structure SubjectPatchBody where
  name : Option String
  description : Option (Option String)
  exam_id : Option String
deriving DecidableEq, Repr

/-- Apply a subject patch to one row. -/
def applySubjectPatch (b : SubjectPatchBody) (s : Subject) : Subject :=
  let s₁ :=
    match b.name with
    | some n => if n ≠ "" then { s with name := n } else s
    | none => s
  let s₂ :=
    match b.description with
    | some d => { s₁ with description := d }
    | none => s₁
  match b.exam_id with
  | some x => if x ≠ "" then { s₂ with exam_id := x } else s₂
  | none => s₂

/-- Embedding of `updateSubjectById`: the admin/org/teacher gate runs first
(403), then fetch by id (404), then
`!hasAuthorizedRole || (subjects[0].user_id !== userId && !userRoles.includes('admin'))`
(403), then patch every row matching the id. -/
def updateSubjectById (subjects : List Subject) (userId : String) (roles : List String)
    (id : String) (b : SubjectPatchBody) : HStatus × List Subject :=
  if id = "" then (.badRequest, subjects)
  else if !(hasAuthorizedRole roles) then (.forbidden, subjects)
  else
    match subjects.filter (fun s => s.id == id) with
    | [] => (.notFound, subjects)
    | s :: _ =>
      if !(hasAuthorizedRole roles) ∨ (s.user_id ≠ userId ∧ ¬ roles.contains "admin") then
        (.forbidden, subjects)
      else (.ok, subjects.map (fun x => if x.id == id then applySubjectPatch b x else x))

/-- Embedding of `deleteSubjectById`: gate, fetch the non-deleted row by id
(404 when absent or already deleted), the same ownership check as update,
then persist the soft-delete flags. -/
def deleteSubjectById (subjects : List Subject) (userId : String) (roles : List String)
    (id : String) : HStatus × List Subject :=
  if id = "" then (.badRequest, subjects)
  else if !(hasAuthorizedRole roles) then (.forbidden, subjects)
  else
    match subjects.filter (fun s => s.id == id && !s.is_deleted) with
    | [] => (.notFound, subjects)
    | s :: _ =>
      if !(hasAuthorizedRole roles) ∨ (s.user_id ≠ userId ∧ ¬ roles.contains "admin") then
        (.forbidden, subjects)
      else (.ok, subjects.map (fun x =>
          if x.id == id then { x with is_deleted := true, is_active := false } else x))

/-! ## Topic controller (topic controller source) -/

/-- Embedding of `getAllTopics`. -/
def getAllTopics (topics : List Topic) : List Topic :=
  topics.filter (fun t => !t.is_deleted && t.is_active)

/-- Embedding of `getTopicById`. -/
def getTopicById (topics : List Topic) (id : String) : HStatus × Option Topic :=
  if id = "" then (.badRequest, none)
  else
    match topics.filter (fun t => t.id == id && !t.is_deleted && t.is_active) with
    | [] => (.notFound, none)
    | t :: _ => (.ok, some t)

/-- Embedding of `getTopicsBySubjectId`. -/
def getTopicsBySubjectId (topics : List Topic) (subjectId : String) : HStatus × List Topic :=
  if subjectId = "" then (.badRequest, [])
  else (.ok, topics.filter (fun t => t.subject_id == subjectId && !t.is_deleted && t.is_active))

/-- Embedding of `getTopicsByUserId`. -/
def getTopicsByUserId (topics : List Topic) (userId : String) : HStatus × List Topic :=
  if userId = "" then (.badRequest, [])
  else (.ok, topics.filter (fun t => t.user_id == userId && !t.is_deleted && t.is_active))

/-- The request body of `updateTopicById`. -/
structure TopicPatchBody where
  name : Option String
  description : Option (Option String)
  subject_id : Option String
deriving DecidableEq, Repr

/-- Apply a topic patch to one row. -/
def applyTopicPatch (b : TopicPatchBody) (t : Topic) : Topic :=
  let t₁ :=
    match b.name with
    | some n => if n ≠ "" then { t with name := n } else t
    | none => t
  let t₂ :=
    match b.description with
    | some d => { t₁ with description := d }
    | none => t₁
  match b.subject_id with
  | some x => if x ≠ "" then { t₂ with subject_id := x } else t₂
  | none => t₂

/-- Embedding of `updateTopicById`: same shape as the subject update. -/
def updateTopicById (topics : List Topic) (userId : String) (roles : List String)
    (id : String) (b : TopicPatchBody) : HStatus × List Topic :=
  if id = "" then (.badRequest, topics)
  else if !(hasAuthorizedRole roles) then (.forbidden, topics)
  else
    match topics.filter (fun t => t.id == id) with
    | [] => (.notFound, topics)
    | t :: _ =>
      if !(hasAuthorizedRole roles) ∨ (t.user_id ≠ userId ∧ ¬ roles.contains "admin") then
        (.forbidden, topics)
      else (.ok, topics.map (fun x => if x.id == id then applyTopicPatch b x else x))

/-- Embedding of `deleteTopicById`: same shape as the subject delete. -/
def deleteTopicById (topics : List Topic) (userId : String) (roles : List String)
    (id : String) : HStatus × List Topic :=
  if id = "" then (.badRequest, topics)
  else if !(hasAuthorizedRole roles) then (.forbidden, topics)
  else
    match topics.filter (fun t => t.id == id && !t.is_deleted) with
    | [] => (.notFound, topics)
    | t :: _ =>
      if !(hasAuthorizedRole roles) ∨ (t.user_id ≠ userId ∧ ¬ roles.contains "admin") then
        (.forbidden, topics)
      else (.ok, topics.map (fun x =>
          if x.id == id then { x with is_deleted := true, is_active := false } else x))

/-! ## Auth controller (`auth.controller.js`) -/

/-- The request body of `authenticate`. A `none` field models an omitted
(undefined) key; JS destructuring defaults apply to the two flags. -/
structure AuthBody where
  user_id : String
  name : Option String
  role : Option JsVal
  email : Option String
  contact_number : Option String
  gender : Option String
  dob : Option String
  profile_picture : Option String
  is_anonymous : Option Bool
  is_approved : Option Bool

/-- Whether every element of a parsed array is a string
(`role.every(r => typeof r === 'string')`). -/
def allStrings (xs : List JsVal) : Bool :=
  xs.all (fun x => match x with | .vstr _ => true | _ => false)

/-- The row inserted by `authenticate` for a new `user_id` (the `userData`
object; `gender`, `dob`, `profile_picture` go through `x || null`). -/
def mkUserRow (b : AuthBody) : UserRow :=
  { user_id := b.user_id, name := b.name, email := b.email
    contact_number := b.contact_number
    gender := normEmpty b.gender, dob := normEmpty b.dob
    profile_picture := normEmpty b.profile_picture
    is_anonymous := b.is_anonymous.getD false
    is_approved := b.is_approved.getD false
    role := b.role }

/-- Apply the `userData` object as a PATCH to an existing row: keys whose
body field is omitted (undefined) are dropped from the JSON payload and
leave the stored value unchanged; the normalized `x || null` fields and
the defaulted flags are always present. -/
def applyUserPatch (b : AuthBody) (u : UserRow) : UserRow :=
  { user_id := b.user_id
    name := match b.name with | some n => some n | none => u.name
    email := match b.email with | some v => some v | none => u.email
    contact_number := match b.contact_number with | some v => some v | none => u.contact_number
    gender := normEmpty b.gender, dob := normEmpty b.dob
    profile_picture := normEmpty b.profile_picture
    is_anonymous := b.is_anonymous.getD false
    is_approved := b.is_approved.getD false
    role := match b.role with | some r => some r | none => u.role }

/-- Embedding of `authenticate`: validate `user_id` and the `role` shape,
check existence by `user_id`, update the existing row in place when found,
insert a new row otherwise. -/
def authenticate (users : List UserRow) (b : AuthBody) : HStatus × List UserRow :=
  if b.user_id = "" then (.badRequest, users)
  else if (match b.role with | some v => v.truthy && !v.isArray | none => false) then
    (.badRequest, users)
  else if (match b.role with
           | some (.varr xs) => !(allStrings xs)
           | _ => false) then
    (.badRequest, users)
  else
    match users.filter (fun u => u.user_id == b.user_id) with
    | [] => (.ok, users ++ [mkUserRow b])
    | _ :: _ => (.ok, users.map (fun u =>
        if u.user_id == b.user_id then applyUserPatch b u else u))

/-! ## Enrollment controller (enrollment controller source) -/

/-- Model of `[...new Set(l)]`: deduplicate keeping the first occurrence of
each element, in insertion order. -/
def jsSetDedup (l : List String) : List String :=
  l.foldl (fun acc x => if acc.contains x then acc else acc ++ [x]) []

/-- Embedding of `enrollInExams`: reject anonymous callers and empty or
missing id arrays, 404 when any exam id does not exist, then union the new
ids into an existing enrollment row (duplicates removed) or insert a fresh
row. `examIds = none` models a missing or non-array body field. -/
def enrollInExams (exams : List Exam) (enrollments : List Enrollment) (userId : String)
    (examIds : Option (List String)) : HStatus × List Enrollment :=
  if userId = "" ∨ userId = "anonymous" then (.unauthorized, enrollments)
  else
    match examIds with
    | none => (.badRequest, enrollments)
    | some ids =>
      if ids.isEmpty then (.badRequest, enrollments)
      else if ids.any (fun eid => (exams.filter (fun e => e.id == eid)).isEmpty) then
        (.notFound, enrollments)
      else
        match enrollments.filter (fun r => r.user_id == userId) with
        | [] => (.ok, enrollments ++ [{ user_id := userId, exam_ids := ids }])
        | r :: _ => (.ok, enrollments.map (fun x =>
            if x.user_id == userId then { x with exam_ids := jsSetDedup (r.exam_ids ++ ids) }
            else x))

/-- Embedding of `unenrollFromExams`: reject anonymous callers and empty or
missing id arrays, 404 when the user has no enrollment row, then write back
the stored collection with every requested id filtered out. -/
def unenrollFromExams (enrollments : List Enrollment) (userId : String)
    (examIds : Option (List String)) : HStatus × List Enrollment :=
  if userId = "" ∨ userId = "anonymous" then (.unauthorized, enrollments)
  else
    match examIds with
    | none => (.badRequest, enrollments)
    | some ids =>
      if ids.isEmpty then (.badRequest, enrollments)
      else
        match enrollments.filter (fun r => r.user_id == userId) with
        | [] => (.notFound, enrollments)
        | r :: _ => (.ok, enrollments.map (fun x =>
            if x.user_id == userId then
              { x with exam_ids := r.exam_ids.filter (fun i => !ids.contains i) }
            else x))

/-! ## Translation controller (translation controller source) -/

/-- One translation item of a create or bulk-create request body. -/
structure TransBody where
  key : String
  english : String
  hindi : Option String
  marathi : Option String
  is_published : Option Bool
deriving DecidableEq, Repr

/-- The row built from a translation item (`translationData`). -/
def mkTranslation (userId : String) (t : TransBody) : Translation :=
  { key := t.key, english := t.english
    hindi := normEmpty t.hindi, marathi := normEmpty t.marathi
    is_published := t.is_published.getD false
    created_by := userId, updated_by := userId }

/-- Embedding of `createTranslation`: validate `key` and `english`, gate on
admin/org/teacher, require a user id, reject with 409 when a row with the
same key already exists, otherwise insert. -/
def createTranslation (translations : List Translation) (userId : String)
    (roles : List String) (body : TransBody) : HStatus × List Translation :=
  if body.key = "" then (.badRequest, translations)
  else if body.english = "" then (.badRequest, translations)
  else if !(hasAuthorizedRole roles) then (.forbidden, translations)
  else if userId = "" then (.badRequest, translations)
  else if !(translations.filter (fun t => t.key == body.key)).isEmpty then
    (.conflict, translations)
  else (.created, translations ++ [mkTranslation userId body])

/-- Embedding of `bulkCreateTranslations`: validate the batch, gate on
admin/org/teacher, reject in-batch duplicate keys with 400, reject with 409
when any key already exists in the table, otherwise insert every item. -/
def bulkCreateTranslations (translations : List Translation) (userId : String)
    (roles : List String) (items : Option (List TransBody)) : HStatus × List Translation :=
  match items with
  | none => (.badRequest, translations)
  | some ts =>
    if ts.isEmpty then (.badRequest, translations)
    else if !(hasAuthorizedRole roles) then (.forbidden, translations)
    else if userId = "" then (.badRequest, translations)
    else if !(ts.filter (fun t => t.key = "" ∨ t.english = "")).isEmpty then
      (.badRequest, translations)
    else if (jsSetDedup (ts.map (fun t => t.key))).length ≠ (ts.map (fun t => t.key)).length then
      (.badRequest, translations)
    else if !((jsSetDedup (ts.map (fun t => t.key))).filter
        (fun k => !(translations.filter (fun t => t.key == k)).isEmpty)).isEmpty then
      (.conflict, translations)
    else (.created, translations ++ ts.map (mkTranslation userId))

/-! ## General helper lemmas -/

/-- Bridge between the `Bool`-valued `List.contains` used in the embedded
controllers and propositional membership. -/
lemma contains_iff (l : List String) (a : String) : l.contains a = true ↔ a ∈ l := by
  simp [List.contains, List.elem_iff]

/-- Negative form of `contains_iff`. -/
lemma contains_eq_false_iff (l : List String) (a : String) : l.contains a = false ↔ a ∉ l := by
  rw [← Bool.not_eq_true, not_iff_not]
  exact contains_iff l a

/-! ## C3: role gate policy -/

/-- C3: for every request and every configuration of
`requireRoles(allowedRoles)`: a missing or empty allowed-role list admits
every request (even a caller with no roles); otherwise an absent or empty
caller role set is rejected with 401; otherwise a caller role set whose
string elements have empty intersection with the allowed list is rejected
with 403; otherwise the request passes. The check is a pure function of the
configuration and the caller's roles — it takes no table state, so it never
consults the database. -/
theorem requireRoles_gate_policy (required : Option (List String))
    (userRoles : Option (List JsVal)) :
    ((required = none ∨ required = some []) → requireRoles required userRoles = .allowed)
    ∧ (∀ req, required = some req → req ≠ [] → (userRoles = none ∨ userRoles = some []) →
        requireRoles required userRoles = .unauthorized)
    ∧ (∀ req ur, required = some req → req ≠ [] → userRoles = some ur → ur ≠ [] →
        (∀ v ∈ ur, ∀ s, v = JsVal.vstr s → s ∉ req) →
        requireRoles required userRoles = .forbidden)
    ∧ (∀ req ur, required = some req → userRoles = some ur →
        (∃ s, s ∈ req ∧ JsVal.vstr s ∈ ur) →
        requireRoles required userRoles = .allowed) := by
  refine ⟨?_, ?_, ?_, ?_⟩
  · rintro (rfl | rfl) <;> simp [requireRoles]
  · rintro req rfl hreq (rfl | rfl) <;>
      simp [requireRoles, List.isEmpty_iff, hreq]
  · rintro req ur rfl hreq rfl hur hdisj
    have hany : ur.any (fun role => jsIncludesStr req role) = false := by
      rw [Bool.eq_false_iff]
      intro hc
      rcases List.any_eq_true.mp hc with ⟨v, hv, hvi⟩
      cases v with
      | vstr s => exact hdisj _ hv s rfl ((contains_iff req s).mp hvi)
      | vnull => simp [jsIncludesStr] at hvi
      | vbool b => simp [jsIncludesStr] at hvi
      | vnum n => simp [jsIncludesStr] at hvi
      | varr xs => simp [jsIncludesStr] at hvi
      | vobj fs => simp [jsIncludesStr] at hvi
    simp [requireRoles, List.isEmpty_iff, hreq, hur, hany]
  · rintro req ur rfl rfl ⟨s, hs, hmem⟩
    have hreq : req ≠ [] := List.ne_nil_of_mem hs
    have hur : ur ≠ [] := List.ne_nil_of_mem hmem
    have hany : ur.any (fun role => jsIncludesStr req role) = true :=
      List.any_eq_true.mpr ⟨JsVal.vstr s, hmem, by
        simp [jsIncludesStr]
        exact hs⟩
    simp [requireRoles, List.isEmpty_iff, hreq, hur, hany]

/-- Witness for C3: a caller whose only role is `user` is rejected with 403
by a gate configured for `admin`, and an empty configuration admits a
caller with an empty role set. -/
theorem requireRoles_gate_policy_witness :
    requireRoles (some ["admin"]) (some [JsVal.vstr "user"]) = .forbidden
    ∧ requireRoles (some []) (some []) = .allowed := by
  constructor
  · refine (requireRoles_gate_policy (some ["admin"]) (some [JsVal.vstr "user"])).2.2.1
      ["admin"] [JsVal.vstr "user"] rfl (by simp) rfl (by simp) ?_
    intro v hv s hvs
    simp at hv
    subst hv
    cases hvs
    simp
  · exact (requireRoles_gate_policy (some []) (some [])).1 (Or.inr rfl)

/-! ## C7: success formatter payload shape (code bug) -/

/-- C7: evaluation of the code at a failing input. The claim (and the
function's own doc comment, "otherwise wrapped in array") says a non-array
payload is wrapped into a list, so the emitted `data` is always a list; but
`sendSuccess` computes `Array.isArray(data) ? data : (data || [])`, which
passes a truthy non-array payload through unchanged. At the object payload
below the emitted `data` field is the object itself and not an array. -/
theorem sendSuccess_object_not_wrapped :
    (sendSuccess "Exam retrieved successfully" (some (JsVal.vobj [("id", JsVal.vstr "e1")]))
        (some 200) "2025-01-01T00:00:00.000Z").2.data = JsVal.vobj [("id", JsVal.vstr "e1")]
    ∧ JsVal.isArray ((sendSuccess "Exam retrieved successfully"
        (some (JsVal.vobj [("id", JsVal.vstr "e1")]))
        (some 200) "2025-01-01T00:00:00.000Z").2.data) = false
    ∧ (sendSuccess "Exam retrieved successfully" (some (JsVal.vobj [("id", JsVal.vstr "e1")]))
        (some 200) "2025-01-01T00:00:00.000Z").2.status = "Success" :=
  ⟨rfl, rfl, rfl⟩

/-! ## C8: error formatter envelope -/

/-- C8: every `sendError` call emits exactly the
`status Failure / message / empty data list / timestamp` envelope with the
given status code (default 400); error detail is attached iff an error
argument is given and `NODE_ENV` is not `production`; and in production two
calls differing only in the error argument produce the same envelope. -/
theorem sendError_envelope_spec (message : String) (statusCode : Option Nat)
    (error : Option ErrArg) (nodeEnv now : String) :
    (sendError message statusCode error nodeEnv now).2.status = "Failure"
    ∧ (sendError message statusCode error nodeEnv now).2.message = message
    ∧ (sendError message statusCode error nodeEnv now).2.data = JsVal.varr []
    ∧ (sendError message statusCode error nodeEnv now).2.timestamp = now
    ∧ (sendError message statusCode error nodeEnv now).1 = statusCode.getD 400
    ∧ ((sendError message statusCode error nodeEnv now).2.error.isSome
        ↔ (error.isSome ∧ nodeEnv ≠ "production"))
    ∧ (nodeEnv = "production" → ∀ e₂,
        sendError message statusCode e₂ nodeEnv now
          = sendError message statusCode error nodeEnv now) := by
  refine ⟨rfl, rfl, rfl, rfl, rfl, ?_, ?_⟩
  · cases error with
    | none => simp [sendError]
    | some e =>
      by_cases hp : nodeEnv = "production" <;> simp [sendError, hp]
  · intro hp e₂
    cases e₂ <;> cases error <;> simp [sendError, hp]

/-- Witness for C8: in production mode, a call carrying an error argument
produces the same envelope as one without, and no error detail is
attached. -/
theorem sendError_envelope_spec_witness :
    sendError "m" none (some ⟨"boom", "stack"⟩) "production" "t"
      = sendError "m" none none "production" "t"
    ∧ (sendError "m" none (some ⟨"boom", "stack"⟩) "production" "t").2.error.isSome = false :=
  ⟨(sendError_envelope_spec "m" none none "production" "t").2.2.2.2.2.2 rfl
      (some ⟨"boom", "stack"⟩),
   rfl⟩

/-! ## C9: composed role pipeline (corrected) -/

/-- C9 counterexample: with the roles header set to the two-character string
holding an empty JSON array, the composed middleware chain leaves
`req.userRoles` empty, and a role-gated route then takes the 401
`no roles provided` branch — so the branch is reachable in the composed
application and the claimed non-emptiness fails. -/
theorem composed_roles_counterexample :
    composedUserRoles (some "[]") = []
    ∧ requireRoles (some ["teacher", "admin", "org", "student"])
        (some (composedUserRoles (some "[]"))) = .unauthorized :=
  ⟨rfl, rfl⟩

/-- C9 amended: after the composed middleware chain (`extractRoles` then
`authMiddleware`, the latter overwriting the former's result),
`req.userRoles` is empty exactly when the roles header is present,
non-empty, and parses as the empty JSON array; in particular an absent
header yields the non-empty default `['user']`. -/
theorem composedUserRoles_empty_iff (h : Option String) :
    (composedUserRoles h = []
      ↔ ∃ s, h = some s ∧ s ≠ "" ∧ jsonParse s = some (JsVal.varr []))
    ∧ (h = none → composedUserRoles h = [JsVal.vstr "user"]) := by
  constructor
  · constructor
    · intro he
      match h with
      | none => simp [composedUserRoles, authUserRoles] at he
      | some s =>
        refine ⟨s, rfl, ?_, ?_⟩ <;>
          · unfold composedUserRoles authUserRoles at he
            by_cases hs : s = ""
            · simp [hs] at he
            · simp [hs] at he
              cases hp : jsonParse s with
              | none => rw [hp] at he; simp at he
              | some v =>
                rw [hp] at he
                cases v with
                | varr xs => simp at he; first | exact hs | rw [he]
                | vnull => simp at he
                | vbool b => simp at he
                | vnum n => simp at he
                | vstr t => simp at he
                | vobj fs => simp at he
    · rintro ⟨s, rfl, hs, hp⟩
      simp [composedUserRoles, authUserRoles, hs, hp]
  · rintro rfl
    rfl

/-- Witness for C9's amended theorem: an absent roles header produces the
default singleton role list. -/
theorem composedUserRoles_empty_iff_witness :
    composedUserRoles none = [JsVal.vstr "user"] :=
  (composedUserRoles_empty_iff none).2 rfl

/-! ## C1: soft delete excludes the identifier from all active reads -/

/-- Successful exam delete: extract the branch facts. -/
lemma deleteExamById_ok_elim {exams out : List Exam} {uid id : String} {roles : List String}
    (h : deleteExamById exams uid roles id = (.ok, out)) :
    id ≠ "" ∧ out = exams.map (fun x =>
      if x.id == id then { x with is_deleted := true, is_active := false } else x) := by
  unfold deleteExamById at h
  split at h
  · simp at h
  · rename_i hid
    split at h
    · simp at h
    · split at h
      · simp at h
      · simp at h
        refine ⟨hid, ?_⟩
        simpa using h.symm

/-- After a successful exam delete, every stored row with the deleted id has
`is_deleted = true` and `is_active = false`. -/
lemma exam_deleted_flags {exams out : List Exam} {uid id : String} {roles : List String}
    (h : deleteExamById exams uid roles id = (.ok, out)) :
    ∀ e ∈ out, e.id = id → e.is_deleted = true ∧ e.is_active = false := by
  obtain ⟨_, hout⟩ := deleteExamById_ok_elim h
  subst hout
  intro e he hei
  rcases List.mem_map.mp he with ⟨x, hx, hxe⟩
  by_cases hxi : x.id = id
  · rw [if_pos (by simp [hxi])] at hxe
    rw [← hxe]
    exact ⟨rfl, rfl⟩
  · rw [if_neg (by simp [hxi])] at hxe
    rw [← hxe] at hei
    exact absurd hei hxi

/-- After a successful exam delete, no stored row with the deleted id is
still undeleted (the fetch filter of a repeated delete finds nothing). -/
lemma exam_no_undeleted {exams out : List Exam} {uid id : String} {roles : List String}
    (h : deleteExamById exams uid roles id = (.ok, out)) :
    out.filter (fun e => e.id == id && !e.is_deleted) = [] := by
  rw [List.filter_eq_nil_iff]
  intro e he hp
  simp only [Bool.and_eq_true, beq_iff_eq, Bool.not_eq_true'] at hp
  exact absurd (exam_deleted_flags h e he hp.1).1 (by simp [hp.2])

/-- After a successful exam delete, the active-by-id fetch finds nothing. -/
lemma exam_no_active {exams out : List Exam} {uid id : String} {roles : List String}
    (h : deleteExamById exams uid roles id = (.ok, out)) :
    out.filter (fun e => e.id == id && !e.is_deleted && e.is_active) = [] := by
  rw [List.filter_eq_nil_iff]
  intro e he hp
  simp only [Bool.and_eq_true, beq_iff_eq, Bool.not_eq_true'] at hp
  exact absurd (exam_deleted_flags h e he hp.1.1).1 (by simp [hp.1.2])

/-- Successful subject delete: extract the branch facts (including the
passed admin/org/teacher gate). -/
lemma deleteSubjectById_ok_elim {subjects out : List Subject} {uid id : String}
    {roles : List String}
    (h : deleteSubjectById subjects uid roles id = (.ok, out)) :
    id ≠ "" ∧ hasAuthorizedRole roles = true ∧ out = subjects.map (fun x =>
      if x.id == id then { x with is_deleted := true, is_active := false } else x) := by
  unfold deleteSubjectById at h
  split at h
  · simp at h
  · rename_i hid
    split at h
    · simp at h
    · rename_i hgate
      split at h
      · simp at h
      · split at h
        · simp at h
        · simp at h
          refine ⟨hid, by simpa using hgate, ?_⟩
          simpa using h.symm

/-- After a successful subject delete, every stored row with the deleted id
carries the soft-delete flags. -/
lemma subject_deleted_flags {subjects out : List Subject} {uid id : String}
    {roles : List String}
    (h : deleteSubjectById subjects uid roles id = (.ok, out)) :
    ∀ s ∈ out, s.id = id → s.is_deleted = true ∧ s.is_active = false := by
  obtain ⟨_, _, hout⟩ := deleteSubjectById_ok_elim h
  subst hout
  intro s hs hsi
  rcases List.mem_map.mp hs with ⟨x, hx, hxs⟩
  by_cases hxi : x.id = id
  · rw [if_pos (by simp [hxi])] at hxs
    rw [← hxs]
    exact ⟨rfl, rfl⟩
  · rw [if_neg (by simp [hxi])] at hxs
    rw [← hxs] at hsi
    exact absurd hsi hxi

/-- After a successful subject delete, no row with the deleted id is still
undeleted. -/
lemma subject_no_undeleted {subjects out : List Subject} {uid id : String}
    {roles : List String}
    (h : deleteSubjectById subjects uid roles id = (.ok, out)) :
    out.filter (fun s => s.id == id && !s.is_deleted) = [] := by
  rw [List.filter_eq_nil_iff]
  intro s hs hp
  simp only [Bool.and_eq_true, beq_iff_eq, Bool.not_eq_true'] at hp
  exact absurd (subject_deleted_flags h s hs hp.1).1 (by simp [hp.2])

/-- After a successful subject delete, the active-by-id fetch finds
nothing. -/
lemma subject_no_active {subjects out : List Subject} {uid id : String}
    {roles : List String}
    (h : deleteSubjectById subjects uid roles id = (.ok, out)) :
    out.filter (fun s => s.id == id && !s.is_deleted && s.is_active) = [] := by
  rw [List.filter_eq_nil_iff]
  intro s hs hp
  simp only [Bool.and_eq_true, beq_iff_eq, Bool.not_eq_true'] at hp
  exact absurd (subject_deleted_flags h s hs hp.1.1).1 (by simp [hp.1.2])

/-- Successful topic delete: extract the branch facts. -/
lemma deleteTopicById_ok_elim {topics out : List Topic} {uid id : String}
    {roles : List String}
    (h : deleteTopicById topics uid roles id = (.ok, out)) :
    id ≠ "" ∧ hasAuthorizedRole roles = true ∧ out = topics.map (fun x =>
      if x.id == id then { x with is_deleted := true, is_active := false } else x) := by
  unfold deleteTopicById at h
  split at h
  · simp at h
  · rename_i hid
    split at h
    · simp at h
    · rename_i hgate
      split at h
      · simp at h
      · split at h
        · simp at h
        · simp at h
          refine ⟨hid, by simpa using hgate, ?_⟩
          simpa using h.symm

/-- After a successful topic delete, every stored row with the deleted id
carries the soft-delete flags. -/
lemma topic_deleted_flags {topics out : List Topic} {uid id : String}
    {roles : List String}
    (h : deleteTopicById topics uid roles id = (.ok, out)) :
    ∀ t ∈ out, t.id = id → t.is_deleted = true ∧ t.is_active = false := by
  obtain ⟨_, _, hout⟩ := deleteTopicById_ok_elim h
  subst hout
  intro t ht hti
  rcases List.mem_map.mp ht with ⟨x, hx, hxt⟩
  by_cases hxi : x.id = id
  · rw [if_pos (by simp [hxi])] at hxt
    rw [← hxt]
    exact ⟨rfl, rfl⟩
  · rw [if_neg (by simp [hxi])] at hxt
    rw [← hxt] at hti
    exact absurd hti hxi

/-- After a successful topic delete, no row with the deleted id is still
undeleted. -/
lemma topic_no_undeleted {topics out : List Topic} {uid id : String}
    {roles : List String}
    (h : deleteTopicById topics uid roles id = (.ok, out)) :
    out.filter (fun t => t.id == id && !t.is_deleted) = [] := by
  rw [List.filter_eq_nil_iff]
  intro t ht hp
  simp only [Bool.and_eq_true, beq_iff_eq, Bool.not_eq_true'] at hp
  exact absurd (topic_deleted_flags h t ht hp.1).1 (by simp [hp.2])

/-- After a successful topic delete, the active-by-id fetch finds nothing. -/
lemma topic_no_active {topics out : List Topic} {uid id : String}
    {roles : List String}
    (h : deleteTopicById topics uid roles id = (.ok, out)) :
    out.filter (fun t => t.id == id && !t.is_deleted && t.is_active) = [] := by
  rw [List.filter_eq_nil_iff]
  intro t ht hp
  simp only [Bool.and_eq_true, beq_iff_eq, Bool.not_eq_true'] at hp
  exact absurd (topic_deleted_flags h t ht hp.1.1).1 (by simp [hp.1.2])

/-- C1: for every soft-deletable resource (exam, subject, topic), after a
successful soft delete of an identifier the stored rows with that
identifier have `is_deleted = true` and `is_active = false`; every active
list/read operation (`getAllExams`, `getExamById`, `getExamsByUserId`,
`getAllSubjects`, `getSubjectById`, `getSubjectsByExamId`,
`getSubjectsByUserId`, `getAllTopics`, `getTopicById`,
`getTopicsBySubjectId`, `getTopicsByUserId`) never returns that identifier;
and a second delete call by the same requester returns not-found. -/
theorem soft_delete_excludes (exams outE : List Exam) (subjects outS : List Subject)
    (topics outT : List Topic) (uid : String) (roles : List String) (id : String) :
    (deleteExamById exams uid roles id = (.ok, outE) →
      (∀ e ∈ outE, e.id = id → e.is_deleted = true ∧ e.is_active = false)
      ∧ (∀ e ∈ getAllExams outE, e.id ≠ id)
      ∧ getExamById outE id = (.notFound, none)
      ∧ (∀ u, ∀ e ∈ (getExamsByUserId outE u).2, e.id ≠ id)
      ∧ (deleteExamById outE uid roles id).1 = .notFound)
    ∧ (deleteSubjectById subjects uid roles id = (.ok, outS) →
      (∀ s ∈ outS, s.id = id → s.is_deleted = true ∧ s.is_active = false)
      ∧ (∀ s ∈ getAllSubjects outS, s.id ≠ id)
      ∧ getSubjectById outS id = (.notFound, none)
      ∧ (∀ x, ∀ s ∈ (getSubjectsByExamId outS x).2, s.id ≠ id)
      ∧ (∀ u, ∀ s ∈ (getSubjectsByUserId outS u).2, s.id ≠ id)
      ∧ (deleteSubjectById outS uid roles id).1 = .notFound)
    ∧ (deleteTopicById topics uid roles id = (.ok, outT) →
      (∀ t ∈ outT, t.id = id → t.is_deleted = true ∧ t.is_active = false)
      ∧ (∀ t ∈ getAllTopics outT, t.id ≠ id)
      ∧ getTopicById outT id = (.notFound, none)
      ∧ (∀ x, ∀ t ∈ (getTopicsBySubjectId outT x).2, t.id ≠ id)
      ∧ (∀ u, ∀ t ∈ (getTopicsByUserId outT u).2, t.id ≠ id)
      ∧ (deleteTopicById outT uid roles id).1 = .notFound) := by
  refine ⟨?_, ?_, ?_⟩
  · intro hE
    obtain ⟨hid, _⟩ := deleteExamById_ok_elim hE
    refine ⟨exam_deleted_flags hE, ?_, ?_, ?_, ?_⟩
    · intro e he heid
      obtain ⟨hmem, hp⟩ := List.mem_filter.mp he
      rw [(exam_deleted_flags hE e hmem heid).1] at hp
      simp at hp
    · unfold getExamById
      rw [if_neg hid, exam_no_active hE]
    · intro u e he heid
      by_cases hu : u = ""
      · simp [getExamsByUserId, hu] at he
      · unfold getExamsByUserId at he
        rw [if_neg hu] at he
        obtain ⟨hmem, hp⟩ := List.mem_filter.mp he
        rw [(exam_deleted_flags hE e hmem heid).1] at hp
        simp at hp
    · unfold deleteExamById
      rw [if_neg hid, exam_no_undeleted hE]
  · intro hS
    obtain ⟨hid, hgate, _⟩ := deleteSubjectById_ok_elim hS
    refine ⟨subject_deleted_flags hS, ?_, ?_, ?_, ?_, ?_⟩
    · intro s hs hsid
      obtain ⟨hmem, hp⟩ := List.mem_filter.mp hs
      rw [(subject_deleted_flags hS s hmem hsid).1] at hp
      simp at hp
    · unfold getSubjectById
      rw [if_neg hid, subject_no_active hS]
    · intro x s hs hsid
      by_cases hx : x = ""
      · simp [getSubjectsByExamId, hx] at hs
      · unfold getSubjectsByExamId at hs
        rw [if_neg hx] at hs
        obtain ⟨hmem, hp⟩ := List.mem_filter.mp hs
        rw [(subject_deleted_flags hS s hmem hsid).1] at hp
        simp at hp
    · intro u s hs hsid
      by_cases hu : u = ""
      · simp [getSubjectsByUserId, hu] at hs
      · unfold getSubjectsByUserId at hs
        rw [if_neg hu] at hs
        obtain ⟨hmem, hp⟩ := List.mem_filter.mp hs
        rw [(subject_deleted_flags hS s hmem hsid).1] at hp
        simp at hp
    · unfold deleteSubjectById
      rw [if_neg hid, if_neg (by simp [hgate]), subject_no_undeleted hS]
  · intro hT
    obtain ⟨hid, hgate, _⟩ := deleteTopicById_ok_elim hT
    refine ⟨topic_deleted_flags hT, ?_, ?_, ?_, ?_, ?_⟩
    · intro t ht htid
      obtain ⟨hmem, hp⟩ := List.mem_filter.mp ht
      rw [(topic_deleted_flags hT t hmem htid).1] at hp
      simp at hp
    · unfold getTopicById
      rw [if_neg hid, topic_no_active hT]
    · intro x t ht htid
      by_cases hx : x = ""
      · simp [getTopicsBySubjectId, hx] at ht
      · unfold getTopicsBySubjectId at ht
        rw [if_neg hx] at ht
        obtain ⟨hmem, hp⟩ := List.mem_filter.mp ht
        rw [(topic_deleted_flags hT t hmem htid).1] at hp
        simp at hp
    · intro u t ht htid
      by_cases hu : u = ""
      · simp [getTopicsByUserId, hu] at ht
      · unfold getTopicsByUserId at ht
        rw [if_neg hu] at ht
        obtain ⟨hmem, hp⟩ := List.mem_filter.mp ht
        rw [(topic_deleted_flags hT t hmem htid).1] at hp
        simp at hp
    · unfold deleteTopicById
      rw [if_neg hid, if_neg (by simp [hgate]), topic_no_undeleted hT]

/-- Witness for C1: an owner with the teacher role deletes an exam, a
subject and a topic; afterwards the by-id reads return not-found and a
repeated delete returns not-found. -/
theorem soft_delete_excludes_witness :
    getExamById
      (deleteExamById [⟨"x1", "Math", none, "u1", true, false⟩] "u1" ["teacher"] "x1").2 "x1"
      = (.notFound, none)
    ∧ (deleteExamById
        (deleteExamById [⟨"x1", "Math", none, "u1", true, false⟩] "u1" ["teacher"] "x1").2
        "u1" ["teacher"] "x1").1 = .notFound
    ∧ getSubjectById
        (deleteSubjectById [⟨"x1", "Algebra", none, "u1", "e1", true, false⟩]
          "u1" ["teacher"] "x1").2 "x1" = (.notFound, none)
    ∧ getTopicById
        (deleteTopicById [⟨"x1", "Groups", none, "u1", "s1", true, false⟩]
          "u1" ["teacher"] "x1").2 "x1" = (.notFound, none) := by
  have hE := (soft_delete_excludes [⟨"x1", "Math", none, "u1", true, false⟩]
      (deleteExamById [⟨"x1", "Math", none, "u1", true, false⟩] "u1" ["teacher"] "x1").2
      [] [] [] [] "u1" ["teacher"] "x1").1 (by decide)
  have hS := (soft_delete_excludes [] []
      [⟨"x1", "Algebra", none, "u1", "e1", true, false⟩]
      (deleteSubjectById [⟨"x1", "Algebra", none, "u1", "e1", true, false⟩]
        "u1" ["teacher"] "x1").2
      [] [] "u1" ["teacher"] "x1").2.1 (by decide)
  have hT := (soft_delete_excludes [] [] [] []
      [⟨"x1", "Groups", none, "u1", "s1", true, false⟩]
      (deleteTopicById [⟨"x1", "Groups", none, "u1", "s1", true, false⟩]
        "u1" ["teacher"] "x1").2
      "u1" ["teacher"] "x1").2.2 (by decide)
  exact ⟨hE.2.2.1, hE.2.2.2.2, hS.2.2.1, hT.2.2.1⟩

/-! ## C2: ownership check on update and delete -/

/-- C2: for every update or delete on an exam, subject or topic whose
stored row exists (the controller's fetch returns it as `r`): when the
requester is neither the stored owner nor an admin, the operation returns
403 and leaves the table unchanged; when the requester is the stored owner
or holds the admin role, the operation succeeds. For subjects and topics
the route-level admin/org/teacher gate (run inside the controller) is a
hypothesis, as in the claim's role-gate proviso. -/
theorem ownership_gate (exams : List Exam) (subjects : List Subject) (topics : List Topic)
    (uid : String) (roles : List String) (id : String)
    (bE : ExamPatchBody) (bS : SubjectPatchBody) (bT : TopicPatchBody) :
    (∀ r rest, id ≠ "" → exams.filter (fun e => e.id == id) = r :: rest →
      ((r.user_id ≠ uid ∧ "admin" ∉ roles) →
        updateExamById exams uid roles id bE = (.forbidden, exams))
      ∧ ((r.user_id = uid ∨ "admin" ∈ roles) →
        (updateExamById exams uid roles id bE).1 = .ok))
    ∧ (∀ r rest, id ≠ "" → exams.filter (fun e => e.id == id && !e.is_deleted) = r :: rest →
      ((r.user_id ≠ uid ∧ "admin" ∉ roles) →
        deleteExamById exams uid roles id = (.forbidden, exams))
      ∧ ((r.user_id = uid ∨ "admin" ∈ roles) →
        (deleteExamById exams uid roles id).1 = .ok))
    ∧ (∀ r rest, id ≠ "" → hasAuthorizedRole roles = true →
        subjects.filter (fun s => s.id == id) = r :: rest →
      ((r.user_id ≠ uid ∧ "admin" ∉ roles) →
        updateSubjectById subjects uid roles id bS = (.forbidden, subjects))
      ∧ ((r.user_id = uid ∨ "admin" ∈ roles) →
        (updateSubjectById subjects uid roles id bS).1 = .ok))
    ∧ (∀ r rest, id ≠ "" → hasAuthorizedRole roles = true →
        subjects.filter (fun s => s.id == id && !s.is_deleted) = r :: rest →
      ((r.user_id ≠ uid ∧ "admin" ∉ roles) →
        deleteSubjectById subjects uid roles id = (.forbidden, subjects))
      ∧ ((r.user_id = uid ∨ "admin" ∈ roles) →
        (deleteSubjectById subjects uid roles id).1 = .ok))
    ∧ (∀ r rest, id ≠ "" → hasAuthorizedRole roles = true →
        topics.filter (fun t => t.id == id) = r :: rest →
      ((r.user_id ≠ uid ∧ "admin" ∉ roles) →
        updateTopicById topics uid roles id bT = (.forbidden, topics))
      ∧ ((r.user_id = uid ∨ "admin" ∈ roles) →
        (updateTopicById topics uid roles id bT).1 = .ok))
    ∧ (∀ r rest, id ≠ "" → hasAuthorizedRole roles = true →
        topics.filter (fun t => t.id == id && !t.is_deleted) = r :: rest →
      ((r.user_id ≠ uid ∧ "admin" ∉ roles) →
        deleteTopicById topics uid roles id = (.forbidden, topics))
      ∧ ((r.user_id = uid ∨ "admin" ∈ roles) →
        (deleteTopicById topics uid roles id).1 = .ok)) := by
  refine ⟨?_, ?_, ?_, ?_, ?_, ?_⟩
  · intro r rest hid hf
    constructor
    · rintro ⟨hne, hnadmin⟩
      unfold updateExamById
      rw [if_neg hid]
      split
      · rename_i heq
        rw [hf] at heq
        cases heq
      · rename_i e tail heq
        rw [hf] at heq
        injection heq with h1 h2
        subst h1
        rw [if_pos ⟨hne, fun hc => hnadmin ((contains_iff _ _).mp hc)⟩]
    · intro hown
      unfold updateExamById
      rw [if_neg hid]
      split
      · rename_i heq
        rw [hf] at heq
        cases heq
      · rename_i e tail heq
        rw [hf] at heq
        injection heq with h1 h2
        subst h1
        rw [if_neg (fun hcond => hown.elim (fun h => hcond.1 h)
          (fun h => hcond.2 ((contains_iff _ _).mpr h)))]
  · intro r rest hid hf
    constructor
    · rintro ⟨hne, hnadmin⟩
      unfold deleteExamById
      rw [if_neg hid]
      split
      · rename_i heq
        rw [hf] at heq
        cases heq
      · rename_i e tail heq
        rw [hf] at heq
        injection heq with h1 h2
        subst h1
        rw [if_pos ⟨hne, fun hc => hnadmin ((contains_iff _ _).mp hc)⟩]
    · intro hown
      unfold deleteExamById
      rw [if_neg hid]
      split
      · rename_i heq
        rw [hf] at heq
        cases heq
      · rename_i e tail heq
        rw [hf] at heq
        injection heq with h1 h2
        subst h1
        rw [if_neg (fun hcond => hown.elim (fun h => hcond.1 h)
          (fun h => hcond.2 ((contains_iff _ _).mpr h)))]
  · intro r rest hid hgate hf
    constructor
    · rintro ⟨hne, hnadmin⟩
      unfold updateSubjectById
      rw [if_neg hid, if_neg (by simp [hgate])]
      split
      · rename_i heq
        rw [hf] at heq
        cases heq
      · rename_i s tail heq
        rw [hf] at heq
        injection heq with h1 h2
        subst h1
        rw [if_pos (Or.inr ⟨hne, fun hc => hnadmin ((contains_iff _ _).mp hc)⟩)]
    · intro hown
      unfold updateSubjectById
      rw [if_neg hid, if_neg (by simp [hgate])]
      split
      · rename_i heq
        rw [hf] at heq
        cases heq
      · rename_i s tail heq
        rw [hf] at heq
        injection heq with h1 h2
        subst h1
        rw [if_neg ?_]
        rintro (hg | hcond)
        · rw [hgate] at hg
          simp at hg
        · exact hown.elim (fun h => hcond.1 h) (fun h => hcond.2 ((contains_iff _ _).mpr h))
  · intro r rest hid hgate hf
    constructor
    · rintro ⟨hne, hnadmin⟩
      unfold deleteSubjectById
      rw [if_neg hid, if_neg (by simp [hgate])]
      split
      · rename_i heq
        rw [hf] at heq
        cases heq
      · rename_i s tail heq
        rw [hf] at heq
        injection heq with h1 h2
        subst h1
        rw [if_pos (Or.inr ⟨hne, fun hc => hnadmin ((contains_iff _ _).mp hc)⟩)]
    · intro hown
      unfold deleteSubjectById
      rw [if_neg hid, if_neg (by simp [hgate])]
      split
      · rename_i heq
        rw [hf] at heq
        cases heq
      · rename_i s tail heq
        rw [hf] at heq
        injection heq with h1 h2
        subst h1
        rw [if_neg ?_]
        rintro (hg | hcond)
        · rw [hgate] at hg
          simp at hg
        · exact hown.elim (fun h => hcond.1 h) (fun h => hcond.2 ((contains_iff _ _).mpr h))
  · intro r rest hid hgate hf
    constructor
    · rintro ⟨hne, hnadmin⟩
      unfold updateTopicById
      rw [if_neg hid, if_neg (by simp [hgate])]
      split
      · rename_i heq
        rw [hf] at heq
        cases heq
      · rename_i t tail heq
        rw [hf] at heq
        injection heq with h1 h2
        subst h1
        rw [if_pos (Or.inr ⟨hne, fun hc => hnadmin ((contains_iff _ _).mp hc)⟩)]
    · intro hown
      unfold updateTopicById
      rw [if_neg hid, if_neg (by simp [hgate])]
      split
      · rename_i heq
        rw [hf] at heq
        cases heq
      · rename_i t tail heq
        rw [hf] at heq
        injection heq with h1 h2
        subst h1
        rw [if_neg ?_]
        rintro (hg | hcond)
        · rw [hgate] at hg
          simp at hg
        · exact hown.elim (fun h => hcond.1 h) (fun h => hcond.2 ((contains_iff _ _).mpr h))
  · intro r rest hid hgate hf
    constructor
    · rintro ⟨hne, hnadmin⟩
      unfold deleteTopicById
      rw [if_neg hid, if_neg (by simp [hgate])]
      split
      · rename_i heq
        rw [hf] at heq
        cases heq
      · rename_i t tail heq
        rw [hf] at heq
        injection heq with h1 h2
        subst h1
        rw [if_pos (Or.inr ⟨hne, fun hc => hnadmin ((contains_iff _ _).mp hc)⟩)]
    · intro hown
      unfold deleteTopicById
      rw [if_neg hid, if_neg (by simp [hgate])]
      split
      · rename_i heq
        rw [hf] at heq
        cases heq
      · rename_i t tail heq
        rw [hf] at heq
        injection heq with h1 h2
        subst h1
        rw [if_neg ?_]
        rintro (hg | hcond)
        · rw [hgate] at hg
          simp at hg
        · exact hown.elim (fun h => hcond.1 h) (fun h => hcond.2 ((contains_iff _ _).mpr h))

/-- Witness for C2: on a one-exam table owned by `u1`, a non-owner without
admin gets 403 and no write; the owner gets 200 on update, and an admin
non-owner gets 200 on delete. -/
theorem ownership_gate_witness :
    updateExamById [⟨"x1", "Math", none, "u1", true, false⟩] "u2" ["teacher"] "x1"
      ⟨some "Physics", none⟩
      = (.forbidden, [⟨"x1", "Math", none, "u1", true, false⟩])
    ∧ (updateExamById [⟨"x1", "Math", none, "u1", true, false⟩] "u1" ["teacher"] "x1"
        ⟨some "Physics", none⟩).1 = .ok
    ∧ (deleteExamById [⟨"x1", "Math", none, "u1", true, false⟩] "u9" ["admin"] "x1").1 = .ok := by
  have h := ownership_gate [⟨"x1", "Math", none, "u1", true, false⟩] [] [] "u2" ["teacher"] "x1"
    ⟨some "Physics", none⟩ ⟨none, none, none⟩ ⟨none, none, none⟩
  have h1 := (h.1 ⟨"x1", "Math", none, "u1", true, false⟩ [] (by decide) (by decide)).1
    (by refine ⟨by decide, ?_⟩; decide)
  have h2 := ((ownership_gate [⟨"x1", "Math", none, "u1", true, false⟩] [] [] "u1" ["teacher"]
    "x1" ⟨some "Physics", none⟩ ⟨none, none, none⟩ ⟨none, none, none⟩).1
    ⟨"x1", "Math", none, "u1", true, false⟩ [] (by decide) (by decide)).2 (Or.inl rfl)
  have h3 := ((ownership_gate [⟨"x1", "Math", none, "u1", true, false⟩] [] [] "u9" ["admin"]
    "x1" ⟨some "Physics", none⟩ ⟨none, none, none⟩ ⟨none, none, none⟩).2.1
    ⟨"x1", "Math", none, "u1", true, false⟩ [] (by decide) (by decide)).2
    (Or.inr (by decide))
  exact ⟨h1, h2, h3⟩

/-! ## Lemmas about the JS set-dedup fold -/

/-- Membership through the dedup fold. -/
lemma jsSetFold_mem (l : List String) : ∀ (acc : List String) (y : String),
    (y ∈ l.foldl (fun acc x => if acc.contains x then acc else acc ++ [x]) acc
      ↔ y ∈ acc ∨ y ∈ l) := by
  induction l with
  | nil => intro acc y; simp
  | cons x xs ih =>
    intro acc y
    simp only [List.foldl_cons]
    by_cases hx : acc.contains x = true
    · rw [if_pos hx, ih]
      constructor
      · rintro (h | h)
        · exact Or.inl h
        · exact Or.inr (List.mem_cons_of_mem _ h)
      · rintro (h | h)
        · exact Or.inl h
        · rcases List.mem_cons.mp h with rfl | h
          · exact Or.inl ((contains_iff _ _).mp hx)
          · exact Or.inr h
    · rw [if_neg hx, ih]
      constructor
      · rintro (h | h)
        · rcases List.mem_append.mp h with h | h
          · exact Or.inl h
          · simp at h
            exact Or.inr (by simp [h])
        · exact Or.inr (List.mem_cons_of_mem _ h)
      · rintro (h | h)
        · exact Or.inl (List.mem_append.mpr (Or.inl h))
        · rcases List.mem_cons.mp h with rfl | h
          · exact Or.inl (by simp)
          · exact Or.inr h

/-- The dedup fold preserves freedom from duplicates. -/
lemma jsSetFold_nodup (l : List String) : ∀ acc : List String, acc.Nodup →
    (l.foldl (fun acc x => if acc.contains x then acc else acc ++ [x]) acc).Nodup := by
  induction l with
  | nil => intro acc h; simpa
  | cons x xs ih =>
    intro acc h
    simp only [List.foldl_cons]
    by_cases hx : acc.contains x = true
    · rw [if_pos hx]
      exact ih acc h
    · rw [if_neg hx]
      refine ih _ ?_
      rw [List.nodup_append]
      refine ⟨h, List.nodup_singleton x, ?_⟩
      intro a ha hax
      simp at hax
      subst hax
      exact hx ((contains_iff _ _).mpr ha)

/-- On input already free of duplicates and disjoint from the accumulator,
the dedup fold just appends. -/
lemma jsSetFold_eq_append (l : List String) : ∀ acc : List String,
    (∀ y ∈ l, y ∉ acc) → l.Nodup →
    l.foldl (fun acc x => if acc.contains x then acc else acc ++ [x]) acc = acc ++ l := by
  induction l with
  | nil => intro acc _ _; simp
  | cons x xs ih =>
    intro acc hdisj hnd
    simp only [List.foldl_cons]
    have hxmem : x ∉ acc := hdisj x (List.mem_cons_self x xs)
    rw [if_neg (by simp [hxmem])]
    rw [ih (acc ++ [x]) ?_ (List.nodup_cons.mp hnd).2]
    · simp
    · intro y hy hmem
      rcases List.mem_append.mp hmem with h | h
      · exact hdisj y (List.mem_cons_of_mem _ hy) h
      · simp at h
        subst h
        exact (List.nodup_cons.mp hnd).1 hy

/-- The dedup fold never grows beyond its input. -/
lemma jsSetFold_length_le (l : List String) : ∀ acc : List String,
    (l.foldl (fun acc x => if acc.contains x then acc else acc ++ [x]) acc).length
      ≤ acc.length + l.length := by
  induction l with
  | nil => intro acc; simp
  | cons x xs ih =>
    intro acc
    simp only [List.foldl_cons, List.length_cons]
    by_cases hx : acc.contains x = true
    · rw [if_pos hx]
      exact le_trans (ih acc) (by omega)
    · rw [if_neg hx]
      have := ih (acc ++ [x])
      simp only [List.length_append, List.length_singleton] at this
      omega

/-- With a duplicate to save (inside the input or against the accumulator),
the dedup fold shrinks strictly. -/
lemma jsSetFold_length_lt (l : List String) : ∀ acc : List String,
    (¬ l.Nodup ∨ ∃ y ∈ l, y ∈ acc) →
    (l.foldl (fun acc x => if acc.contains x then acc else acc ++ [x]) acc).length
      < acc.length + l.length := by
  induction l with
  | nil =>
    intro acc h
    rcases h with h | ⟨y, hy, _⟩
    · exact absurd List.nodup_nil h
    · simp at hy
  | cons x xs ih =>
    intro acc h
    simp only [List.foldl_cons, List.length_cons]
    by_cases hx : acc.contains x = true
    · rw [if_pos hx]
      have := jsSetFold_length_le xs acc
      omega
    · rw [if_neg hx]
      have hstep : (¬ xs.Nodup ∨ ∃ y ∈ xs, y ∈ acc ++ [x]) := by
        rcases h with h | ⟨y, hy, hya⟩
        · rw [List.nodup_cons] at h
          push_neg at h
          by_cases hxx : x ∈ xs
          · exact Or.inr ⟨x, hxx, by simp⟩
          · exact Or.inl (h hxx)
        · rcases List.mem_cons.mp hy with rfl | hy
          · exact absurd ((contains_iff _ _).mpr hya) hx
          · exact Or.inr ⟨y, hy, List.mem_append.mpr (Or.inl hya)⟩
      have := ih (acc ++ [x]) hstep
      simp only [List.length_append, List.length_singleton] at this
      omega

/-- Membership in `jsSetDedup`. -/
lemma jsSetDedup_mem (l : List String) (y : String) : y ∈ jsSetDedup l ↔ y ∈ l := by
  unfold jsSetDedup
  rw [jsSetFold_mem]
  simp

/-- `jsSetDedup` output has no duplicates. -/
lemma jsSetDedup_nodup (l : List String) : (jsSetDedup l).Nodup :=
  jsSetFold_nodup l [] List.nodup_nil

/-- `jsSetDedup` is the identity on duplicate-free input. -/
lemma jsSetDedup_eq_self (l : List String) (h : l.Nodup) : jsSetDedup l = l := by
  unfold jsSetDedup
  rw [jsSetFold_eq_append l [] (by simp) h]
  simp

/-- `jsSetDedup` strictly shrinks input holding a duplicate, so the bulk
in-batch duplicate check (`new Set(keys).size !== keys.length`) fires
exactly on duplicated batches. -/
lemma jsSetDedup_length_ne (l : List String) (h : ¬ l.Nodup) :
    (jsSetDedup l).length ≠ l.length := by
  have := jsSetFold_length_lt l [] (Or.inl h)
  simp only [List.length_nil, Nat.zero_add] at this
  unfold jsSetDedup
  omega

/-! ## C4: translation key uniqueness -/

/-- C4: a `createTranslation` request (passing validation and the role
gate) whose key matches an existing row returns 409 and inserts nothing;
a `bulkCreateTranslations` batch containing an in-batch duplicate key is
rejected with 400 and inserts nothing; and a duplicate-free batch in which
any key matches an existing row is rejected with 409 and inserts nothing. -/
theorem translation_key_unique (translations : List Translation) (uid : String)
    (roles : List String) (body : TransBody) (ts : List TransBody) :
    (body.key ≠ "" → body.english ≠ "" → hasAuthorizedRole roles = true → uid ≠ "" →
      (∃ t ∈ translations, t.key = body.key) →
      createTranslation translations uid roles body = (.conflict, translations))
    ∧ (ts ≠ [] → hasAuthorizedRole roles = true → uid ≠ "" →
      (∀ t ∈ ts, t.key ≠ "" ∧ t.english ≠ "") →
      ¬ (ts.map (fun t => t.key)).Nodup →
      bulkCreateTranslations translations uid roles (some ts) = (.badRequest, translations))
    ∧ (ts ≠ [] → hasAuthorizedRole roles = true → uid ≠ "" →
      (∀ t ∈ ts, t.key ≠ "" ∧ t.english ≠ "") →
      (ts.map (fun t => t.key)).Nodup →
      (∃ tb ∈ ts, ∃ t ∈ translations, t.key = tb.key) →
      bulkCreateTranslations translations uid roles (some ts) = (.conflict, translations)) := by
  refine ⟨?_, ?_, ?_⟩
  · intro hk he hg hu hex
    have hfilter : ¬ (translations.filter (fun t => t.key == body.key)).isEmpty = true := by
      rcases hex with ⟨t, ht, htk⟩
      rw [List.isEmpty_iff]
      intro hnil
      have := List.filter_eq_nil_iff.mp hnil t ht
      simp [htk] at this
    unfold createTranslation
    rw [if_neg hk, if_neg he, if_neg (by simp [hg]), if_neg hu,
      if_pos (by simpa using hfilter)]
  · intro hts hg hu hvalid hdup
    simp only [bulkCreateTranslations]
    rw [if_neg (by simpa [List.isEmpty_iff] using hts), if_neg (by simp [hg]), if_neg hu,
      if_neg (by simp; exact hvalid),
      if_pos (jsSetDedup_length_ne _ hdup)]
  · intro hts hg hu hvalid hnodup hex
    have hlen : ¬ (jsSetDedup (ts.map (fun t => t.key))).length
        ≠ (ts.map (fun t => t.key)).length := by
      rw [jsSetDedup_eq_self _ hnodup]
      simp
    have hconflict : ¬ ((jsSetDedup (ts.map (fun t => t.key))).filter
        (fun k => !(translations.filter (fun t => t.key == k)).isEmpty)).isEmpty = true := by
      rcases hex with ⟨tb, htb, t, ht, htk⟩
      rw [jsSetDedup_eq_self _ hnodup, List.isEmpty_iff]
      intro hnil
      have hkmem : tb.key ∈ ts.map (fun t => t.key) := List.mem_map.mpr ⟨tb, htb, rfl⟩
      have hthis := List.filter_eq_nil_iff.mp hnil tb.key hkmem
      simp [List.isEmpty_iff, List.filter_eq_nil_iff] at hthis
      exact hthis t ht htk
    simp only [bulkCreateTranslations]
    rw [if_neg (by simpa [List.isEmpty_iff] using hts), if_neg (by simp [hg]), if_neg hu,
      if_neg (by simp; exact hvalid), if_neg hlen,
      if_pos (by simpa using hconflict)]

/-- Witness for C4: with one stored row keyed `hello`, a single create on
`hello` returns 409; a batch repeating the key `fresh` returns 400; and a
duplicate-free batch containing `hello` returns 409 — each leaving the
table unchanged. -/
theorem translation_key_unique_witness :
    createTranslation
      [⟨"hello", "Hello", none, none, false, "u1", "u1"⟩] "u1" ["admin"]
      ⟨"hello", "Hi", none, none, none⟩
      = (.conflict, [⟨"hello", "Hello", none, none, false, "u1", "u1"⟩])
    ∧ bulkCreateTranslations
        [⟨"hello", "Hello", none, none, false, "u1", "u1"⟩] "u1" ["admin"]
        (some [⟨"fresh", "Fresh", none, none, none⟩, ⟨"fresh", "Fresh2", none, none, none⟩])
        = (.badRequest, [⟨"hello", "Hello", none, none, false, "u1", "u1"⟩])
    ∧ bulkCreateTranslations
        [⟨"hello", "Hello", none, none, false, "u1", "u1"⟩] "u1" ["admin"]
        (some [⟨"fresh", "Fresh", none, none, none⟩, ⟨"hello", "Hi", none, none, none⟩])
        = (.conflict, [⟨"hello", "Hello", none, none, false, "u1", "u1"⟩]) := by
  refine ⟨?_, ?_, ?_⟩
  · exact (translation_key_unique [⟨"hello", "Hello", none, none, false, "u1", "u1"⟩]
      "u1" ["admin"] ⟨"hello", "Hi", none, none, none⟩ []).1
      (by decide) (by decide) (by decide) (by decide)
      ⟨⟨"hello", "Hello", none, none, false, "u1", "u1"⟩, by simp, rfl⟩
  · exact (translation_key_unique [⟨"hello", "Hello", none, none, false, "u1", "u1"⟩]
      "u1" ["admin"] ⟨"x", "X", none, none, none⟩
      [⟨"fresh", "Fresh", none, none, none⟩, ⟨"fresh", "Fresh2", none, none, none⟩]).2.1
      (by decide) (by decide) (by decide)
      (by intro t ht; simp at ht; rcases ht with rfl | rfl <;> exact ⟨by decide, by decide⟩)
      (by decide)
  · exact (translation_key_unique [⟨"hello", "Hello", none, none, false, "u1", "u1"⟩]
      "u1" ["admin"] ⟨"x", "X", none, none, none⟩
      [⟨"fresh", "Fresh", none, none, none⟩, ⟨"hello", "Hi", none, none, none⟩]).2.2
      (by decide) (by decide) (by decide)
      (by intro t ht; simp at ht; rcases ht with rfl | rfl <;> exact ⟨by decide, by decide⟩)
      (by decide)
      ⟨⟨"hello", "Hi", none, none, none⟩, by simp,
        ⟨"hello", "Hello", none, none, false, "u1", "u1"⟩, by simp, rfl⟩

/-! ## C5 and C10: enrollment union and difference -/

/-- Filtering on a key after a keyed in-place update is the update of the
filtered rows, provided the update keeps matching rows matching. -/
lemma filter_map_key {α : Type} (key : α → String) (uid : String) (f : α → α)
    (hf : ∀ x, key x = uid → key (f x) = uid) :
    ∀ l : List α,
      ((l.map (fun x => if key x == uid then f x else x)).filter (fun x => key x == uid))
        = (l.filter (fun x => key x == uid)).map f := by
  intro l
  induction l with
  | nil => rfl
  | cons x xs ih =>
    simp only [List.map_cons]
    by_cases hx : (key x == uid) = true
    · rw [if_pos hx, List.filter_cons, List.filter_cons,
        if_pos (show (key (f x) == uid) = true by simp [hf x (by simpa using hx)]),
        if_pos hx, List.map_cons, ih]
    · rw [if_neg hx, List.filter_cons, List.filter_cons, if_neg hx, if_neg hx, ih]

/-- Successful enrollment call: either a fresh row was inserted or the
existing row was updated with the dedup union. -/
lemma enrollInExams_ok_elim {exams : List Exam} {enr out : List Enrollment} {uid : String}
    {ids : List String} (h : enrollInExams exams enr uid (some ids) = (.ok, out)) :
    (enr.filter (fun r => r.user_id == uid) = [] ∧ out = enr ++ [⟨uid, ids⟩])
    ∨ (∃ r rest, enr.filter (fun r => r.user_id == uid) = r :: rest ∧
        out = enr.map (fun x => if x.user_id == uid then
          { x with exam_ids := jsSetDedup (r.exam_ids ++ ids) } else x)) := by
  simp only [enrollInExams] at h
  split at h
  · simp at h
  · split at h
    · simp at h
    · split at h
      · simp at h
      · split at h
        · rename_i heq
          injection h with h1 h2
          exact Or.inl ⟨heq, h2.symm⟩
        · rename_i r rest heq
          injection h with h1 h2
          exact Or.inr ⟨r, rest, heq, h2.symm⟩

/-- C5: starting from a table holding at most one enrollment row for the
user, two successful `enrollInExams` calls that both request the exam
identifier `x` leave exactly one enrollment row for the user, whose stored
collection holds exactly one occurrence of `x`, has no duplicates at all,
and is the set union of the previously stored collection with the second
request (membership-wise), not an append. -/
theorem enroll_union_idempotent (exams : List Exam) (enr enr1 enr2 : List Enrollment)
    (uid x : String) (ids1 ids2 : List String)
    (hwf : (enr.filter (fun r => r.user_id == uid)).length ≤ 1)
    (h1 : enrollInExams exams enr uid (some ids1) = (.ok, enr1))
    (h2 : enrollInExams exams enr1 uid (some ids2) = (.ok, enr2))
    (hx1 : x ∈ ids1) (hx2 : x ∈ ids2) :
    ∃ r2, enr2.filter (fun r => r.user_id == uid) = [r2]
      ∧ r2.exam_ids.count x = 1
      ∧ r2.exam_ids.Nodup
      ∧ ∃ r1, enr1.filter (fun r => r.user_id == uid) = [r1]
          ∧ (∀ y, y ∈ r2.exam_ids ↔ (y ∈ r1.exam_ids ∨ y ∈ ids2)) := by
  have hr1 : ∃ r1, enr1.filter (fun r => r.user_id == uid) = [r1] := by
    rcases enrollInExams_ok_elim h1 with ⟨hnil, hout⟩ | ⟨r, rest, hcons, hout⟩
    · subst hout
      rw [List.filter_append, hnil]
      exact ⟨⟨uid, ids1⟩, by simp⟩
    · have hrest : rest = [] := by
        rw [hcons] at hwf
        simp only [List.length_cons] at hwf
        have : rest.length = 0 := by omega
        exact List.length_eq_zero.mp this
      subst hrest
      subst hout
      refine ⟨{ r with exam_ids := jsSetDedup (r.exam_ids ++ ids1) }, ?_⟩
      rw [filter_map_key (fun e : Enrollment => e.user_id) uid
        (fun e : Enrollment => { e with exam_ids := jsSetDedup (r.exam_ids ++ ids1) })
        (fun _ hk => hk), hcons]
      rfl
  obtain ⟨r1, hr1f⟩ := hr1
  rcases enrollInExams_ok_elim h2 with ⟨hnil, _⟩ | ⟨r, rest, hcons, hout⟩
  · rw [hr1f] at hnil
    cases hnil
  · rw [hr1f] at hcons
    injection hcons with hhead htail
    rw [← hhead] at hout
    subst hout
    refine ⟨{ r1 with exam_ids := jsSetDedup (r1.exam_ids ++ ids2) }, ?_, ?_, ?_,
      r1, hr1f, ?_⟩
    · rw [filter_map_key (fun e : Enrollment => e.user_id) uid
        (fun e : Enrollment => { e with exam_ids := jsSetDedup (r1.exam_ids ++ ids2) })
        (fun _ hk => hk), hr1f]
      rfl
    · have hmem : x ∈ jsSetDedup (r1.exam_ids ++ ids2) :=
        (jsSetDedup_mem _ _).mpr (List.mem_append.mpr (Or.inr hx2))
      exact List.count_eq_one_of_mem (jsSetDedup_nodup _) hmem
    · exact jsSetDedup_nodup _
    · intro y
      rw [jsSetDedup_mem, List.mem_append]

/-- Witness for C5: enrolling a fresh user in exam `e1` twice stores a
single enrollment row with exactly one occurrence of `e1`. -/
theorem enroll_union_idempotent_witness :
    ∃ r2, ((enrollInExams [⟨"e1", "Math", none, "u1", true, false⟩]
        (enrollInExams [⟨"e1", "Math", none, "u1", true, false⟩] [] "u1" (some ["e1"])).2
        "u1" (some ["e1"])).2).filter (fun r => r.user_id == "u1") = [r2]
      ∧ r2.exam_ids.count "e1" = 1 := by
  obtain ⟨r2, hf, hc, _, _⟩ := enroll_union_idempotent
    [⟨"e1", "Math", none, "u1", true, false⟩] []
    (enrollInExams [⟨"e1", "Math", none, "u1", true, false⟩] [] "u1" (some ["e1"])).2
    (enrollInExams [⟨"e1", "Math", none, "u1", true, false⟩]
      (enrollInExams [⟨"e1", "Math", none, "u1", true, false⟩] [] "u1" (some ["e1"])).2
      "u1" (some ["e1"])).2
    "u1" "e1" ["e1"] ["e1"]
    (by decide) (by decide) (by decide) (by decide) (by decide)
  exact ⟨r2, hf, hc⟩

/-- Occurrence count after removing the elements of `ids`
(`currentExamIds.filter(id => !examIds.includes(id))`): requested
identifiers disappear, all others keep their multiplicity. -/
lemma count_filter_without (l : List String) (ids : List String) (y : String) :
    (l.filter (fun i => !ids.contains i)).count y
      = if y ∈ ids then 0 else l.count y := by
  induction l with
  | nil => simp
  | cons a l ih =>
    by_cases ha : a ∈ ids
    · have hc : ids.contains a = true := (contains_iff _ _).mpr ha
      rw [List.filter_cons, if_neg (by rw [hc]; simp), ih]
      by_cases hy : y ∈ ids
      · simp [hy]
      · have hya : y ≠ a := fun hh => hy (hh ▸ ha)
        rw [if_neg hy, if_neg hy, List.count_cons_of_ne hya]
    · have hc : ids.contains a = false := (contains_eq_false_iff _ _).mpr ha
      rw [List.filter_cons, if_pos (by rw [hc]; simp)]
      by_cases hy : y ∈ ids
      · have hya : y ≠ a := fun hh => ha (hh ▸ hy)
        rw [List.count_cons_of_ne hya, ih, if_pos hy, if_pos hy]
      · rw [List.count_cons, List.count_cons, ih, if_neg hy, if_neg hy]

/-! C10 theorem and witness -/

/-- C10: for a user with an existing enrollment row, `unenrollFromExams`
with a non-empty request succeeds and writes back the stored collection
with exactly the requested identifiers removed (every requested identifier
has count zero, every other identifier keeps its count); in particular a
request disjoint from the stored collection leaves it unchanged. -/
theorem unenroll_difference (enr : List Enrollment) (uid : String) (ids : List String)
    (r : Enrollment) (rest : List Enrollment)
    (hu1 : uid ≠ "") (hu2 : uid ≠ "anonymous") (hids : ids ≠ [])
    (hr : enr.filter (fun e => e.user_id == uid) = r :: rest) :
    (unenrollFromExams enr uid (some ids)).1 = .ok
    ∧ (∀ e ∈ (unenrollFromExams enr uid (some ids)).2, e.user_id = uid →
        ((∀ y, e.exam_ids.count y = if y ∈ ids then 0 else r.exam_ids.count y)
         ∧ ((∀ y ∈ r.exam_ids, y ∉ ids) → e.exam_ids = r.exam_ids))) := by
  have hout : unenrollFromExams enr uid (some ids)
      = (.ok, enr.map (fun x => if x.user_id == uid then
          { x with exam_ids := r.exam_ids.filter (fun i => !ids.contains i) } else x)) := by
    simp only [unenrollFromExams]
    rw [if_neg (fun hor => hor.elim hu1 hu2),
      if_neg (by simp [List.isEmpty_iff]; exact hids), hr]
  rw [hout]
  refine ⟨rfl, ?_⟩
  intro e he heu
  rcases List.mem_map.mp he with ⟨xx, hxx, hxe⟩
  by_cases hxu : xx.user_id = uid
  · rw [if_pos (by simp [hxu])] at hxe
    rw [← hxe]
    constructor
    · intro y
      exact count_filter_without r.exam_ids ids y
    · intro hdisj
      refine List.filter_eq_self.mpr ?_
      intro a ha
      rw [(contains_eq_false_iff _ _).mpr (hdisj a ha)]
      simp
  · rw [if_neg (by simp [hxu])] at hxe
    rw [← hxe] at heu
    exact absurd heu hxu

/-- Witness for C10: a user enrolled in `e1` unenrolls from the disjoint
`e9`; the call succeeds and the stored collection is unchanged. -/
theorem unenroll_difference_witness :
    (unenrollFromExams [⟨"u1", ["e1"]⟩] "u1" (some ["e9"])).1 = .ok
    ∧ ∀ e ∈ (unenrollFromExams [⟨"u1", ["e1"]⟩] "u1" (some ["e9"])).2,
        e.user_id = "u1" → e.exam_ids = ["e1"] := by
  have h := unenroll_difference [⟨"u1", ["e1"]⟩] "u1" ["e9"] ⟨"u1", ["e1"]⟩ []
    (by decide) (by decide) (by decide) (by decide)
  refine ⟨h.1, ?_⟩
  intro e he heu
  exact (h.2 e he heu).2 (by decide)

/-! ## C6: authenticate is an upsert keyed on the user identifier -/

/-- Successful `authenticate` call: either the row existed and was patched
in place, or it did not and was inserted. -/
lemma authenticate_ok_elim {users out : List UserRow} {b : AuthBody}
    (h : authenticate users b = (.ok, out)) :
    (users.filter (fun u => u.user_id == b.user_id) = [] ∧ out = users ++ [mkUserRow b])
    ∨ (users.filter (fun u => u.user_id == b.user_id) ≠ [] ∧
        out = users.map (fun x =>
          if x.user_id == b.user_id then applyUserPatch b x else x)) := by
  simp only [authenticate] at h
  split at h
  · simp at h
  · split at h
    · simp at h
    · split at h
      · simp at h
      · split at h
        · rename_i heq
          injection h with h1 h2
          exact Or.inl ⟨heq, h2.symm⟩
        · rename_i u tail heq
          injection h with h1 h2
          exact Or.inr ⟨by simp [heq], h2.symm⟩

/-- C6: starting from a table with no row for `uid`, two successful
`authenticate` calls with `user_id = uid` leave exactly one stored row for
`uid`, and that row carries the second call's `name`: the second call found
the row inserted by the first and updated it in place instead of inserting
a second row. -/
theorem authenticate_upsert (users users1 users2 : List UserRow) (b1 b2 : AuthBody)
    (uid n2 : String)
    (h0 : users.filter (fun u => u.user_id == uid) = [])
    (hid1 : b1.user_id = uid) (hid2 : b2.user_id = uid) (hn2 : b2.name = some n2)
    (h1 : authenticate users b1 = (.ok, users1))
    (h2 : authenticate users1 b2 = (.ok, users2)) :
    (users2.filter (fun u => u.user_id == uid)).length = 1
    ∧ (∀ u ∈ users2, u.user_id = uid → u.name = some n2) := by
  rcases authenticate_ok_elim h1 with ⟨_, hout1⟩ | ⟨hne, _⟩
  · subst hout1
    have hfil1 : (users ++ [mkUserRow b1]).filter (fun u => u.user_id == uid)
        = [mkUserRow b1] := by
      rw [List.filter_append, h0]
      simp [mkUserRow, hid1]
    rcases authenticate_ok_elim h2 with ⟨hnil2, _⟩ | ⟨_, hout2⟩
    · rw [hid2, hfil1] at hnil2
      cases hnil2
    · subst hout2
      rw [hid2]
      rw [filter_map_key (fun u : UserRow => u.user_id) uid (applyUserPatch b2)
        (fun _ _ => hid2), hfil1]
      refine ⟨rfl, ?_⟩
      intro u hu huid
      rcases List.mem_map.mp hu with ⟨xx, hxx, hxu⟩
      by_cases hxid : xx.user_id = uid
      · rw [if_pos (by simp [hxid, hid2])] at hxu
        have hxmem : xx ∈ (users ++ [mkUserRow b1]).filter (fun u => u.user_id == uid) :=
          List.mem_filter.mpr ⟨hxx, by simp [hxid]⟩
        rw [hfil1] at hxmem
        simp at hxmem
        subst hxmem
        rw [← hxu]
        simp [applyUserPatch, hn2]
      · rw [if_neg (by simp [hid2, hxid])] at hxu
        rw [← hxu] at huid
        exact absurd huid hxid
  · rw [hid1, h0] at hne
    exact absurd rfl hne

/-- Witness for C6: authenticating the fresh user `u1` as `Ada` and again
as `Lovelace` leaves one stored row for `u1` named `Lovelace`. -/
theorem authenticate_upsert_witness :
    (((authenticate
        (authenticate []
          ⟨"u1", some "Ada", none, none, none, none, none, none, none, none⟩).2
        ⟨"u1", some "Lovelace", none, none, none, none, none, none, none, none⟩).2).filter
      (fun u => u.user_id == "u1")).length = 1
    ∧ ∀ u ∈ (authenticate
        (authenticate []
          ⟨"u1", some "Ada", none, none, none, none, none, none, none, none⟩).2
        ⟨"u1", some "Lovelace", none, none, none, none, none, none, none, none⟩).2,
        u.user_id = "u1" → u.name = some "Lovelace" := by
  have h := authenticate_upsert []
    (authenticate [] ⟨"u1", some "Ada", none, none, none, none, none, none, none, none⟩).2
    (authenticate
      (authenticate [] ⟨"u1", some "Ada", none, none, none, none, none, none, none, none⟩).2
      ⟨"u1", some "Lovelace", none, none, none, none, none, none, none, none⟩).2
    ⟨"u1", some "Ada", none, none, none, none, none, none, none, none⟩
    ⟨"u1", some "Lovelace", none, none, none, none, none, none, none, none⟩
    "u1" "Lovelace" rfl rfl rfl rfl ?h1 ?h2
  · exact h
  · rfl
  · rfl

end PQB
